import Mathlib

/-!
Shallow embedding of the fedrate repository core (the resilient fetch layer with
content-addressed caching, the provenance recorder, and the bounded deduplicating
SERP aggregator), together with proofs settling the specification claims.

Sources embedded:
* `src/serp_utils.py` — `SerpRecorder` and `record_query_results`;
* `src/io_clients.py` — `_cache_key`, `fetch`, `record_source`.

Python dicts with known string keys are embedded as structures; absent keys are
`Option.none`.  Python sets are embedded as lists of members (membership is all
that is used).  Filesystem state is passed explicitly; functions return the
effects (records appended, cache files written, sleeps performed) alongside
their result.
-/

namespace Fedrate

/-- Python's `str.strip()`: drop whitespace from both ends (structural, so
that concrete instances evaluate in the kernel). -/
def pyStrip (s : String) : String :=
  String.mk (((s.data.dropWhile Char.isWhitespace).reverse.dropWhile Char.isWhitespace).reverse)

/-- A raw SERP item, a Python dict `{title, url, snippet, provider}` where any
key may be absent (`none`). From `serp_utils.record_query_results` item access. -/
structure SerpItem where
  url : Option String
  title : Option String
  snippet : Option String
  provider : Option String
  deriving Repr, DecidableEq

/-- One structured source record appended to the run's provenance log by
`record_source_jsonl` (the timestamp, an environment input, is omitted). -/
structure SourceRecord where
  claim : String
  url : String
  snippet : String
  provider : String
  sourceKind : String
  query : String
  rankInQuery : Nat
  deriving Repr, DecidableEq

/-- Extra metadata passed by `record_query_results` to the provenance recorder. -/
structure ExtraMeta where
  provider : String
  sourceKind : String
  query : String
  rankInQuery : Nat
  deriving Repr, DecidableEq

/-- One normalized entry of the run-wide aggregate `_agg_results`
(`serp_utils.py` lines 69–74). -/
structure AggItem where
  title : String
  url : String
  snippet : String
  provider : String
  deriving Repr, DecidableEq

/-- The mutable state of `serp_utils.SerpRecorder`.  `run_cap = None` is
`Option.none`; the Python `set` `_seen_urls` is embedded as a list of members. -/
structure SerpRecorder where
  topKPerQuery : Nat
  runCap : Option Nat
  seenUrls : List String
  totalRecorded : Nat
  aggResults : List AggItem
  deriving Repr, DecidableEq

/-- `SerpRecorder.__init__` (defaults `top_k_per_query=6`, `run_cap=20`). -/
def mkSerpRecorder (topKPerQuery : Nat) (runCap : Option Nat) : SerpRecorder :=
  ⟨topKPerQuery, runCap, [], 0, []⟩

/-- `SerpRecorder._can_record_more`. -/
def canRecordMore (st : SerpRecorder) : Bool :=
  match st.runCap with
  | none => true
  | some cap => st.totalRecorded < cap

/-- `SerpRecorder.all_results` property. -/
def all_results (st : SerpRecorder) : List AggItem :=
  st.aggResults

/-- `SerpRecorder.total_recorded` property. -/
def total_recorded (st : SerpRecorder) : Nat :=
  st.totalRecorded

/-- Modelled from the spec: `record_source_jsonl` is imported from `io_clients`
by `serp_utils.record_query_results` but is not present under `src/`; per the
spec the Provenance Recorder appends one structured source record (claim, URL,
snippet, extra metadata) to the run's append-only log.  This builds the record
that one call appends. -/
def recordSourceJsonl (claim url snippet : String) (extra : ExtraMeta) : SourceRecord :=
  ⟨claim, url, snippet, extra.provider, extra.sourceKind, extra.query, extra.rankInQuery⟩

/-- The normalized `{title, url, snippet, provider}` copy of a raw item that
`record_query_results` appends to `_agg_results` when it accepts the item
(`serp_utils.py` lines 69–74: `item.get("title") or ""`, the stripped `url`,
`item.get("snippet", "")`, `item.get("provider", "unknown")`). -/
def normalizeItem (item : SerpItem) : AggItem :=
  ⟨item.title.getD "", pyStrip (item.url.getD ""), item.snippet.getD "", item.provider.getD "unknown"⟩

/-- The state update performed when `record_query_results` accepts an item
(`serp_utils.py` lines 68–76): add the stripped URL to `_seen_urls`, append
the normalized copy to `_agg_results`, increment `_total_recorded`. -/
def acceptItem (st : SerpRecorder) (item : SerpItem) : SerpRecorder :=
  { st with
    seenUrls := pyStrip (item.url.getD "") :: st.seenUrls,
    aggResults := st.aggResults ++ [normalizeItem item],
    totalRecorded := st.totalRecorded + 1 }

/-- The provenance record delegated to `record_source_jsonl` for an accepted
item (`serp_utils.py` lines 56–66): claim `f"SERP:{query}"`, the stripped URL,
the snippet, and extra metadata `{provider, "SERP", query, rank_in_query}`. -/
def acceptRecord (query : String) (item : SerpItem) (rank : Nat) : SourceRecord :=
  recordSourceJsonl ("SERP:" ++ query) (pyStrip (item.url.getD "")) (item.snippet.getD "")
    ⟨item.provider.getD "unknown", "SERP", query, rank⟩

/-- The `for item in results` loop of `SerpRecorder.record_query_results`,
threading the two loop counters `rank_in_query` and `taken`.  Returns the
recorder state after the loop, the provenance records appended by the loop (in
order), and the value of `taken` returned by the method. -/
def rqrGo (query : String) : SerpRecorder → List SerpItem → Nat → Nat →
    SerpRecorder × List SourceRecord × Nat
  | st, [], _, taken => (st, [], taken)
  | st, item :: rest, rankInQuery, taken =>
    if pyStrip (item.url.getD "") = "" then
      rqrGo query st rest rankInQuery taken
    else if st.topKPerQuery ≤ taken ∨ canRecordMore st = false then
      (st, [], taken)
    else if pyStrip (item.url.getD "") ∈ st.seenUrls then
      rqrGo query st rest rankInQuery taken
    else
      let out := rqrGo query (acceptItem st item) rest (rankInQuery + 1) (taken + 1)
      (out.1, acceptRecord query item (rankInQuery + 1) :: out.2.1, out.2.2)

/-- `SerpRecorder.record_query_results(results, query)`: both counters start at
0 and the single left-to-right pass is `rqrGo`. -/
def record_query_results (st : SerpRecorder) (results : List SerpItem) (query : String) :
    SerpRecorder × List SourceRecord × Nat :=
  rqrGo query st results 0 0

/-- A sequence of `record_query_results` calls on one recorder (each element is
the `(results, query)` pair of one call), returning the final state. -/
def runCalls : SerpRecorder → List (List SerpItem × String) → SerpRecorder
  | st, [] => st
  | st, (results, q) :: rest => runCalls (record_query_results st results q).1 rest

/-! ### Provenance recorder: `io_clients.record_source` -/

/-- One record of the `sources.json` log written by `record_source`
(`ts` is the `time.strftime` timestamp, an input of the model). -/
structure SourceItem where
  ts : String
  claim : String
  url : String
  snippet : String
  deriving Repr, DecidableEq

/-- The state of the run's source log file as `record_source` finds it:
absent, present but failing to parse (or unreadable), or parsed to a JSON
array of records. -/
inductive LogFile
  | absent
  | corrupt
  | parsed (items : List SourceItem)
  deriving Repr, DecidableEq

/-- `io_clients.record_source`: load the existing log (a corrupt or unreadable
file is caught by the `try/except` and treated as the empty list, as is an
absent file), append the new record, and write the result back.  Returns the
full contents written to the file; the function is total — no input makes it
raise. -/
def record_source (file : LogFile) (ts claim url snippet : String) : List SourceItem :=
  let items : List SourceItem :=
    match file with
    | .absent => []
    | .corrupt => []
    | .parsed l => l
  items ++ [⟨ts, claim, url, snippet⟩]

/-! ### Canonical JSON serialization (`json.dumps(payload, sort_keys=True)`)

`fetch` builds `payload = {"url", "method", "params", "json"}`; `params` and
`json` are themselves dicts.  The model restricts the nested dicts to
string-valued fields (the repository's own calls pass string parameters) and
implements the stdlib's serialization on them: keys sorted lexicographically,
`", "` / `": "` separators, strings quoted with backslash and quote escaped.
Non-ASCII escaping (`ensure_ascii`) is not modelled; content is ASCII in use. -/

/-- JSON string escaping of one character (quote and backslash). -/
def escChar (c : Char) : List Char :=
  if c = '\\' then ['\\', '\\']
  else if c = '"' then ['\\', '"']
  else [c]

/-- A JSON string literal: `json.dumps` on a Python `str`. -/
def jsonStr (s : String) : String :=
  "\"" ++ String.mk (s.data.flatMap escChar) ++ "\""

/-- Key order used by `sort_keys=True`: compare the (string) keys. -/
def keyLE (a b : String × String) : Prop :=
  a.1 ≤ b.1

instance : DecidableRel keyLE :=
  fun a b => inferInstanceAs (Decidable (a.1 ≤ b.1))

/-- `sort_keys=True` on a flat string-valued dict: entries sorted by key. -/
def sortByKey (l : List (String × String)) : List (String × String) :=
  List.insertionSort keyLE l

/-- `json.dumps` of a flat string-valued dict with `sort_keys=True`. -/
def jsonObj (l : List (String × String)) : String :=
  "\x7b" ++ String.intercalate ", "
    ((sortByKey l).map (fun kv => jsonStr kv.1 ++ ": " ++ jsonStr kv.2)) ++ "\x7d"

/-- The request payload dict built at the top of `fetch`
(`{"url": url, "method": method.upper(), "params": params or {}, "json": json_body or {}}`). -/
structure Payload where
  url : String
  method : String
  params : List (String × String)
  jsonBody : List (String × String)
  deriving Repr, DecidableEq

/-- Python's `str.upper()` on ASCII content (structural, so that concrete
instances evaluate in the kernel). -/
def pyUpper (s : String) : String :=
  String.mk (s.data.map Char.toUpper)

/-- `fetch`'s construction of the payload from its arguments (line 32):
`method.upper()`, and `None` parameters default to the empty dict. -/
def mkPayload (url method : String) (params jsonBody : Option (List (String × String))) :
    Payload :=
  ⟨url, pyUpper method, params.getD [], jsonBody.getD []⟩

/-- `json.dumps(payload, sort_keys=True)`: the four top-level keys in sorted
order (`"json" < "method" < "params" < "url"`). -/
def canonicalPayload (p : Payload) : String :=
  "\x7b" ++ "\"json\": " ++ jsonObj p.jsonBody
    ++ ", \"method\": " ++ jsonStr p.method
    ++ ", \"params\": " ++ jsonObj p.params
    ++ ", \"url\": " ++ jsonStr p.url ++ "\x7d"

/-! ### SHA-256 (`hashlib.sha256`), on lists of bytes as `Nat` -/

/-- Truncate to a 32-bit word. -/
def w32 (n : Nat) : Nat := n % 4294967296

/-- Right rotation of a 32-bit word by `n` places. -/
def rotr (n x : Nat) : Nat := x / 2 ^ n + x % 2 ^ n * 2 ^ (32 - n)

/-- Logical right shift of a 32-bit word. -/
def shr (n x : Nat) : Nat := x / 2 ^ n

/-- Bitwise complement of a 32-bit word. -/
def not32 (x : Nat) : Nat := 4294967295 - x

/-- SHA-256 `Ch`. -/
def shaCh (x y z : Nat) : Nat := (x &&& y) ^^^ (not32 x &&& z)

/-- SHA-256 `Maj`. -/
def shaMaj (x y z : Nat) : Nat := (x &&& y) ^^^ (x &&& z) ^^^ (y &&& z)

/-- SHA-256 `Σ0`. -/
def bigSigma0 (x : Nat) : Nat := rotr 2 x ^^^ rotr 13 x ^^^ rotr 22 x

/-- SHA-256 `Σ1`. -/
def bigSigma1 (x : Nat) : Nat := rotr 6 x ^^^ rotr 11 x ^^^ rotr 25 x

/-- SHA-256 `σ0`. -/
def smallSigma0 (x : Nat) : Nat := rotr 7 x ^^^ rotr 18 x ^^^ shr 3 x

/-- SHA-256 `σ1`. -/
def smallSigma1 (x : Nat) : Nat := rotr 17 x ^^^ rotr 19 x ^^^ shr 10 x

/-- The 64 SHA-256 round constants. -/
def shaK : List Nat :=
  [1116352408, 1899447441, 3049323471, 3921009573, 961987163, 1508970993,
   2453635748, 2870763221, 3624381080, 310598401, 607225278, 1426881987,
   1925078388, 2162078206, 2614888103, 3248222580, 3835390401, 4022224774,
   264347078, 604807628, 770255983, 1249150122, 1555081692, 1996064986,
   2554220882, 2821834349, 2952996808, 3210313671, 3336571891, 3584528711,
   113926993, 338241895, 666307205, 773529912, 1294757372, 1396182291,
   1695183700, 1986661051, 2177026350, 2456956037, 2730485921, 2820302411,
   3259730800, 3345764771, 3516065817, 3600352804, 4094571909, 275423344,
   430227734, 506948616, 659060556, 883997877, 958139571, 1322822218,
   1537002063, 1747873779, 1955562222, 2024104815, 2227730452, 2361852424,
   2428436474, 2756734187, 3204031479, 3329325298]

/-- The eight working variables of the compression function. -/
structure Hash8 where
  a : Nat
  b : Nat
  c : Nat
  d : Nat
  e : Nat
  f : Nat
  g : Nat
  h : Nat
  deriving Repr, DecidableEq

/-- The SHA-256 initial hash value. -/
def shaH0 : Hash8 :=
  ⟨1779033703, 3144134277, 1013904242, 2773480762, 1359893119, 2600822924, 528734635, 1541459225⟩

/-- One extension step of the message schedule, kept newest-word-first. -/
def scheduleStep (w : List Nat) : List Nat :=
  w32 (smallSigma1 (w.getD 1 0) + w.getD 6 0 + smallSigma0 (w.getD 14 0) + w.getD 15 0) :: w

/-- Extend the 16 chunk words to the 64-word message schedule. -/
def schedule (chunk : List Nat) : List Nat :=
  (scheduleStep^[48] chunk.reverse).reverse

/-- One SHA-256 round. -/
def shaRound (s : Hash8) (kw : Nat × Nat) : Hash8 :=
  let t1 := w32 (s.h + bigSigma1 s.e + shaCh s.e s.f s.g + kw.1 + kw.2)
  let t2 := w32 (bigSigma0 s.a + shaMaj s.a s.b s.c)
  ⟨w32 (t1 + t2), s.a, s.b, s.c, w32 (s.d + t1), s.e, s.f, s.g⟩

/-- Compress one 16-word chunk into the running hash. -/
def compress (h : Hash8) (chunk : List Nat) : Hash8 :=
  let s := (List.zip shaK (schedule chunk)).foldl shaRound h
  ⟨w32 (h.a + s.a), w32 (h.b + s.b), w32 (h.c + s.c), w32 (h.d + s.d),
   w32 (h.e + s.e), w32 (h.f + s.f), w32 (h.g + s.g), w32 (h.h + s.h)⟩

/-- Group a list of bytes into big-endian 32-bit words. -/
def toWords : List Nat → List Nat
  | b0 :: b1 :: b2 :: b3 :: rest => (((b0 * 256 + b1) * 256 + b2) * 256 + b3) :: toWords rest
  | _ => []

/-- SHA-256 message padding: `0x80`, zeros to 56 mod 64 bytes, then the
64-bit big-endian bit length. -/
def shaPad (msg : List Nat) : List Nat :=
  let l := msg.length
  let zeros := (64 + 55 - l % 64) % 64
  let bitLen := 8 * l
  msg ++ 128 :: List.replicate zeros 0 ++
    [bitLen / 2 ^ 56 % 256, bitLen / 2 ^ 48 % 256, bitLen / 2 ^ 40 % 256, bitLen / 2 ^ 32 % 256,
     bitLen / 2 ^ 24 % 256, bitLen / 2 ^ 16 % 256, bitLen / 2 ^ 8 % 256, bitLen % 256]

/-- Process the padded message 16 words at a time; `fuel` bounds the number of
chunks (the word count suffices). -/
def processChunks : Nat → List Nat → Hash8 → Hash8
  | 0, _, h => h
  | _ + 1, [], h => h
  | fuel + 1, ws, h => processChunks fuel (ws.drop 16) (compress h (ws.take 16))

/-- SHA-256 of a byte list. -/
def sha256 (msg : List Nat) : Hash8 :=
  let ws := toWords (shaPad msg)
  processChunks ws.length ws shaH0

/-- One lowercase hex digit. -/
def hexChar (n : Nat) : Char :=
  if n < 10 then Char.ofNat (48 + n) else Char.ofNat (87 + n)

/-- Eight hex digits of a 32-bit word (big-endian nibbles). -/
def wordHex (w : Nat) : List Char :=
  (List.range 8).map (fun i => hexChar (w / 16 ^ (7 - i) % 16))

/-- `hexdigest()`: 64 lowercase hex characters of the final hash. -/
def digestChars (s : Hash8) : List Char :=
  wordHex s.a ++ wordHex s.b ++ wordHex s.c ++ wordHex s.d ++
  wordHex s.e ++ wordHex s.f ++ wordHex s.g ++ wordHex s.h

/-- UTF-8 encoding of one character (`str.encode()`). -/
def charBytes (c : Char) : List Nat :=
  let n := c.toNat
  if n < 128 then [n]
  else if n < 2048 then [192 + n / 64, 128 + n % 64]
  else if n < 65536 then [224 + n / 4096, 128 + n / 64 % 64, 128 + n % 64]
  else [240 + n / 262144, 128 + n / 4096 % 64, 128 + n / 64 % 64, 128 + n % 64]

/-- `str.encode()` of a string. -/
def strBytes (s : String) : List Nat :=
  s.data.flatMap charBytes

/-- The 16-character truncated hex digest of `_cache_key`
(`hashlib.sha256(json.dumps(payload, sort_keys=True).encode()).hexdigest()[:16]`). -/
def cacheDigest (p : Payload) : String :=
  String.mk ((digestChars (sha256 (strBytes (canonicalPayload p)))).take 16)

/-- `io_clients._cache_key(provider, payload)`: the cache file name
`f"{provider}-{h}.json"` (the constant `CACHE_DIR` directory is not modelled). -/
def cacheKeyName (provider : String) (p : Payload) : String :=
  provider ++ "-" ++ cacheDigest p ++ ".json"

/-! ### The resilient fetch client: `io_clients.fetch`

The cache directory is a map from file name to file state; the network is a
map from the (1-based) attempt number to that attempt's outcome; the jitter is
a map from the attempt number to the `random.uniform(0, 0.5)` sample taken
after that attempt fails.  Durations are rationals (the floats involved —
1.0 and its doublings — are exact in binary floating point).  `fetch` returns
its result together with the number of network calls performed, the list of
back-off sleeps, and the list of cache files written. -/

/-- A response body: parsed JSON when the response declares a JSON content
type (`r.json()`, kept abstract as its serialized form), else the raw text
(`r.text`). -/
inductive Body
  | json (v : String)
  | text (s : String)
  deriving Repr, DecidableEq

/-- The `meta` dict `{"status": r.status_code, "ms": elapsed}`. -/
structure Meta where
  status : Nat
  ms : Nat
  deriving Repr, DecidableEq

/-- The `{"meta": ..., "body": ...}` dict `fetch` caches and returns. -/
structure FetchData where
  meta : Meta
  body : Body
  deriving Repr, DecidableEq

/-- A persisted cache file as `json.loads(key.read_text())` finds it: parsable
to an entry, or raising on malformed content. -/
inductive FileContent
  | parsable (d : FetchData)
  | corrupt
  deriving Repr, DecidableEq

/-- The cache directory: file name to file state (`none` = no such file). -/
def CacheStore : Type := String → Option FileContent

/-- The outcome of one live HTTP attempt: a transport-level exception
(timeout, connection error), or a response with status, elapsed time, and
body (already decoded by content type). -/
inductive NetResult
  | exn
  | resp (status : Nat) (ms : Nat) (body : Body)
  deriving Repr, DecidableEq

/-- The exception raised by one attempt's `try` block:
the transport exception, the `RuntimeError(f"retryable_status:...")`, or the
`httpx.HTTPStatusError` from `r.raise_for_status()`. -/
inductive AttemptError
  | transport
  | retryableStatus (code : Nat)
  | httpStatusError (code : Nat)
  deriving Repr, DecidableEq

/-- An error propagating out of `fetch`: the `FileNotFoundError` of a
cache-only miss, the `json.JSONDecodeError` of a malformed cache file, or the
last attempt error re-raised when retries are exhausted. -/
inductive FetchErr
  | cacheMiss
  | jsonDecodeError
  | attemptFailed (e : AttemptError)
  deriving Repr, DecidableEq

/-- What `fetch` does for the caller: return a data dict, return Python
`None` (the fall-off-the-loop case when `max_retries` is 0), or raise. -/
inductive FetchResult
  | ok (d : FetchData)
  | pyNone
  | err (e : FetchErr)
  deriving Repr, DecidableEq

/-- The observable outcome of a `fetch` call: its result, the number of
network requests performed, the back-off sleeps in order, and the cache files
written (name and content). -/
structure FetchOut where
  result : FetchResult
  netCalls : Nat
  sleeps : List ℚ
  writes : List (String × FetchData)
  deriving Repr, DecidableEq

/-- The fixed retryable set (line 52). -/
def retryableStatuses : List Nat := [408, 425, 429, 500, 502, 503, 504]

/-- The body of one iteration's `try` block, up to building `data`: classify a
retryable status (raise `RuntimeError`), apply `r.raise_for_status()` (raise
on a non-2xx status), else build the `{"meta", "body"}` dict. -/
def attemptOnce : NetResult → Except AttemptError FetchData
  | .exn => .error .transport
  | .resp status ms body =>
    if status ∈ retryableStatuses then .error (.retryableStatus status)
    else if 200 ≤ status ∧ status ≤ 299 then .ok ⟨⟨status, ms⟩, body⟩
    else .error (.httpStatusError status)

/-- The `for attempt in range(1, max_retries + 1)` loop.  `attempt` is the
1-based attempt number about to run, `remaining` the number of iterations
left, `delay` the current back-off delay.  On success the data is persisted
(`key.write_text`) and returned; on failure of the last iteration the error is
re-raised; otherwise the loop sleeps `delay + jitter` and doubles `delay`. -/
def fetchLoop (net : Nat → NetResult) (jitter : Nat → ℚ) (key : String) :
    Nat → Nat → ℚ → FetchOut
  | _, 0, _ => ⟨.pyNone, 0, [], []⟩
  | attempt, remaining + 1, delay =>
    match attemptOnce (net attempt) with
    | .ok d => ⟨.ok d, 1, [], [(key, d)]⟩
    | .error e =>
      match remaining with
      | 0 => ⟨.err (.attemptFailed e), 1, [], []⟩
      | r + 1 =>
        let rest := fetchLoop net jitter key (attempt + 1) (r + 1) (2 * delay)
        ⟨rest.result, rest.netCalls + 1, (delay + jitter attempt) :: rest.sleeps, rest.writes⟩

/-- `io_clients.fetch`: compute the cache key; in `cache_only` mode return the
parsed cache file or raise (`FileNotFoundError` when absent, the parse error
when malformed); else on `use_cache` with an existing file parse and return
it; otherwise run the retry loop with `delay = 1.0`. -/
def fetch (store : CacheStore) (provider url method : String)
    (params jsonBody : Option (List (String × String))) (useCache cacheOnly : Bool)
    (maxRetries : Nat) (net : Nat → NetResult) (jitter : Nat → ℚ) : FetchOut :=
  let key := cacheKeyName provider (mkPayload url method params jsonBody)
  if cacheOnly then
    match store key with
    | some (.parsable d) => ⟨.ok d, 0, [], []⟩
    | some .corrupt => ⟨.err .jsonDecodeError, 0, [], []⟩
    | none => ⟨.err .cacheMiss, 0, [], []⟩
  else
    match store key with
    | some (.parsable d) =>
      if useCache then ⟨.ok d, 0, [], []⟩ else fetchLoop net jitter key 1 maxRetries 1
    | some .corrupt =>
      if useCache then ⟨.err .jsonDecodeError, 0, [], []⟩
      else fetchLoop net jitter key 1 maxRetries 1
    | none => fetchLoop net jitter key 1 maxRetries 1

/-- The aggregate/seen-set invariant of the recorder: `_agg_results` holds
pairwise-distinct URLs, all of which appear in `_seen_urls`. -/
def AggInv (st : SerpRecorder) : Prop :=
  (st.aggResults.map AggItem.url).Nodup ∧
    ∀ u ∈ st.aggResults.map AggItem.url, u ∈ st.seenUrls

instance : IsTotal (String × String) keyLE :=
  ⟨fun a b => le_total a.1 b.1⟩

instance : IsTrans (String × String) keyLE :=
  ⟨fun _ _ _ h1 h2 => le_trans h1 h2⟩

/-! ## Theorems: the SERP aggregator -/

theorem acceptItem_topKPerQuery (st : SerpRecorder) (item : SerpItem) :
    (acceptItem st item).topKPerQuery = st.topKPerQuery := rfl

theorem acceptItem_runCap (st : SerpRecorder) (item : SerpItem) :
    (acceptItem st item).runCap = st.runCap := rfl

theorem acceptItem_totalRecorded (st : SerpRecorder) (item : SerpItem) :
    (acceptItem st item).totalRecorded = st.totalRecorded + 1 := rfl

theorem acceptItem_seenUrls (st : SerpRecorder) (item : SerpItem) :
    (acceptItem st item).seenUrls = pyStrip (item.url.getD "") :: st.seenUrls := rfl

theorem acceptItem_aggResults (st : SerpRecorder) (item : SerpItem) :
    (acceptItem st item).aggResults = st.aggResults ++ [normalizeItem item] := rfl

theorem acceptRecord_url (query : String) (item : SerpItem) (rank : Nat) :
    (acceptRecord query item rank).url = pyStrip (item.url.getD "") := rfl

/-- Characterization of one `record_query_results` loop run, by induction on
the result list: the returned count, the ranks/contents of the appended
provenance records, and the state evolution. -/
theorem rqrGo_char (query : String) (results : List SerpItem) :
    ∀ (st : SerpRecorder) (r t : Nat) (stF : SerpRecorder) (recs : List SourceRecord) (tF : Nat),
      rqrGo query st results r t = (stF, recs, tF) →
      tF = t + recs.length ∧
      recs.map SourceRecord.rankInQuery = List.range' (r + 1) recs.length ∧
      (∀ rec ∈ recs, rec.claim = "SERP:" ++ query ∧ rec.sourceKind = "SERP" ∧
        rec.query = query) ∧
      stF.totalRecorded = st.totalRecorded + recs.length ∧
      stF.topKPerQuery = st.topKPerQuery ∧
      stF.runCap = st.runCap ∧
      stF.seenUrls = (recs.map SourceRecord.url).reverse ++ st.seenUrls ∧
      (recs.map SourceRecord.url).Nodup ∧
      (∀ u ∈ recs.map SourceRecord.url, u ∉ st.seenUrls) ∧
      ∃ newAggs,
        stF.aggResults = st.aggResults ++ newAggs ∧
        newAggs.map (fun a => (a.url, a.snippet, a.provider))
          = recs.map (fun rec => (rec.url, rec.snippet, rec.provider)) ∧
        ∀ a ∈ newAggs, ∃ item ∈ results, a = normalizeItem item := by
  induction results with
  | nil =>
    intro st r t stF recs tF h
    simp only [rqrGo] at h
    injection h with h1 h2
    injection h2 with h2 h3
    subst h1; subst h2; subst h3
    refine ⟨by simp, by simp, by simp, by simp, rfl, rfl, by simp, by simp, by simp,
      [], by simp, by simp, by simp⟩
  | cons item rest ih =>
    intro st r t stF recs tF h
    simp only [rqrGo] at h
    split at h
    · obtain ⟨h1, h2, h3, h4, h5, h6, h7, h8, h9, newAggs, ha1, ha2, ha3⟩ :=
        ih st r t stF recs tF h
      exact ⟨h1, h2, h3, h4, h5, h6, h7, h8, h9, newAggs, ha1, ha2,
        fun a ha => (ha3 a ha).imp fun i hi => ⟨List.mem_cons_of_mem _ hi.1, hi.2⟩⟩
    · split at h
      · injection h with h1 h2
        injection h2 with h2 h3
        subst h1; subst h2; subst h3
        refine ⟨by simp, by simp, by simp, by simp, rfl, rfl, by simp, by simp, by simp,
          [], by simp, by simp, by simp⟩
      · split at h
        · obtain ⟨h1, h2, h3, h4, h5, h6, h7, h8, h9, newAggs, ha1, ha2, ha3⟩ :=
            ih st r t stF recs tF h
          exact ⟨h1, h2, h3, h4, h5, h6, h7, h8, h9, newAggs, ha1, ha2,
            fun a ha => (ha3 a ha).imp fun i hi => ⟨List.mem_cons_of_mem _ hi.1, hi.2⟩⟩
        · rename_i hurl hlim hseen
          injection h with h1 h2
          injection h2 with h2 h3
          subst h1; subst h2; subst h3
          obtain ⟨h1, h2, h3, h4, h5, h6, h7, h8, h9, newAggs, ha1, ha2, ha3⟩ :=
            ih (acceptItem st item) (r + 1) (t + 1) _ _ _ rfl
          refine ⟨?_, ?_, ?_, ?_, ?_, ?_, ?_, ?_, ?_,
            normalizeItem item :: newAggs, ?_, ?_, ?_⟩
          case refine_1 =>
            simp only [List.length_cons]
            rw [h1]
            generalize (rqrGo query (acceptItem st item) rest (r + 1) (t + 1)).2.1.length = n
            omega
          case refine_2 =>
            simp only [List.map_cons, List.length_cons, List.range'_succ]
            exact congrArg _ h2
          case refine_3 =>
            intro rec hrec
            rcases List.mem_cons.mp hrec with hh | hh
            · subst hh; exact ⟨rfl, rfl, rfl⟩
            · exact h3 rec hh
          case refine_4 =>
            simp only [List.length_cons]
            rw [h4, acceptItem_totalRecorded]
            generalize (rqrGo query (acceptItem st item) rest (r + 1) (t + 1)).2.1.length = n
            omega
          case refine_5 =>
            rw [h5, acceptItem_topKPerQuery]
          case refine_6 =>
            rw [h6, acceptItem_runCap]
          case refine_7 =>
            rw [h7, acceptItem_seenUrls]
            simp [acceptRecord_url, List.append_assoc]
          case refine_8 =>
            simp only [List.map_cons, List.nodup_cons]
            refine ⟨fun hmem => ?_, h8⟩
            have hin : (acceptRecord query item (r + 1)).url ∈ (acceptItem st item).seenUrls := by
              rw [acceptItem_seenUrls, acceptRecord_url]
              exact List.mem_cons_self _ _
            exact h9 _ hmem hin
          case refine_9 =>
            intro u hu
            rcases List.mem_cons.mp hu with hh | hh
            · subst hh
              rw [acceptRecord_url]
              exact hseen
            · intro hmem
              refine h9 u hh ?_
              rw [acceptItem_seenUrls]
              exact List.mem_cons_of_mem _ hmem
          case refine_10 =>
            rw [ha1, acceptItem_aggResults]
            simp [List.append_assoc]
          case refine_11 =>
            simp only [List.map_cons]
            exact congrArg _ ha2
          case refine_12 =>
            intro a ha
            rcases List.mem_cons.mp ha with hh | hh
            · exact ⟨item, List.mem_cons_self _ _, hh⟩
            · exact (ha3 a hh).imp fun i hi => ⟨List.mem_cons_of_mem _ hi.1, hi.2⟩

theorem rqrGo_runCap_eq (query : String) (results : List SerpItem)
    (st : SerpRecorder) (r t : Nat) :
    (rqrGo query st results r t).1.runCap = st.runCap := by
  obtain ⟨_, _, _, _, _, h6, _⟩ := rqrGo_char query results st r t _ _ _ rfl
  exact h6

/-- The value returned by the loop is bounded by `max taken top_k_per_query`:
an item is accepted only while `taken < top_k_per_query`. -/
theorem rqrGo_taken_le (query : String) (results : List SerpItem) :
    ∀ (st : SerpRecorder) (r t : Nat),
      (rqrGo query st results r t).2.2 ≤ max t st.topKPerQuery := by
  induction results with
  | nil =>
    intro st r t
    simp only [rqrGo]
    exact Nat.le_max_left t st.topKPerQuery
  | cons item rest ih =>
    intro st r t
    simp only [rqrGo]
    split
    · exact ih st r t
    · split
      · exact Nat.le_max_left t st.topKPerQuery
      · split
        · exact ih st r t
        · rename_i hurl hlim hseen
          rw [not_or] at hlim
          have ht : t < st.topKPerQuery := Nat.lt_of_not_le hlim.1
          have hih := ih (acceptItem st item) (r + 1) (t + 1)
          rw [acceptItem_topKPerQuery] at hih
          rw [Nat.max_eq_right (by omega)] at hih
          exact hih.trans (Nat.le_max_right _ _)

/-- Every accepted item is guarded by `_can_record_more`, so a run-cap bound
on `_total_recorded` is preserved by the loop. -/
theorem rqrGo_cap_le (query : String) (results : List SerpItem) :
    ∀ (st : SerpRecorder) (r t cap : Nat), st.runCap = some cap →
      st.totalRecorded ≤ cap →
      (rqrGo query st results r t).1.totalRecorded ≤ cap := by
  induction results with
  | nil =>
    intro st r t cap _ h2
    simpa [rqrGo] using h2
  | cons item rest ih =>
    intro st r t cap h1 h2
    simp only [rqrGo]
    split
    · exact ih st r t cap h1 h2
    · split
      · exact h2
      · split
        · exact ih st r t cap h1 h2
        · rename_i hurl hlim hseen
          rw [not_or] at hlim
          have hmore : st.totalRecorded < cap := by
            have := hlim.2
            rw [Bool.not_eq_false] at this
            simpa [canRecordMore, h1] using this
          refine ih (acceptItem st item) (r + 1) (t + 1) cap ?_ ?_
          · rw [acceptItem_runCap]; exact h1
          · rw [acceptItem_totalRecorded]; omega

theorem runCalls_cap_le (calls : List (List SerpItem × String)) :
    ∀ (st : SerpRecorder) (cap : Nat), st.runCap = some cap →
      st.totalRecorded ≤ cap → (runCalls st calls).totalRecorded ≤ cap := by
  induction calls with
  | nil =>
    intro st cap _ h2
    simpa [runCalls] using h2
  | cons c rest ih =>
    intro st cap h1 h2
    obtain ⟨results, q⟩ := c
    simp only [runCalls]
    refine ih _ cap ?_ ?_
    · rw [record_query_results, rqrGo_runCap_eq]; exact h1
    · exact rqrGo_cap_le q results st 0 0 cap h1 h2

theorem rqrGo_aggInv (query : String) (results : List SerpItem)
    (st : SerpRecorder) (r t : Nat) (hinv : AggInv st) :
    AggInv (rqrGo query st results r t).1 := by
  obtain ⟨inv1, inv2⟩ := hinv
  obtain ⟨h1, h2, h3, h4, h5, h6, h7, h8, h9, newAggs, ha1, ha2, ha3⟩ :=
    rqrGo_char query results st r t _ _ _ rfl
  have hurls : newAggs.map AggItem.url
      = (rqrGo query st results r t).2.1.map SourceRecord.url := by
    have hc := congrArg (List.map Prod.fst) ha2
    simpa [List.map_map, Function.comp] using hc
  constructor
  · rw [ha1, List.map_append]
    refine List.Nodup.append inv1 (hurls ▸ h8) ?_
    intro u hu1 hu2
    rw [hurls] at hu2
    exact h9 u hu2 (inv2 u hu1)
  · intro u hu
    rw [ha1, List.map_append, List.mem_append] at hu
    rw [h7]
    rcases hu with hu | hu
    · exact List.mem_append_right _ (inv2 u hu)
    · rw [hurls] at hu
      exact List.mem_append_left _ (List.mem_reverse.mpr hu)

theorem runCalls_aggInv (calls : List (List SerpItem × String)) :
    ∀ (st : SerpRecorder), AggInv st → AggInv (runCalls st calls) := by
  induction calls with
  | nil =>
    intro st h
    simpa [runCalls] using h
  | cons c rest ih =>
    intro st h
    obtain ⟨results, q⟩ := c
    simp only [runCalls]
    exact ih _ (rqrGo_aggInv q results st 0 0 h)

/-- C3: for every call `record_query_results(results, query)` and every item
it accepts, the aggregator assigns 1-based ranks counting only accepted items
of this query, delegates one provenance record per accepted item (with the
query's claim tag), adds each accepted URL to the seen set, appends a
normalized `{title, url, snippet, provider}` copy of the accepted item to the
run-wide aggregate, and returns the number of items accepted for this call. -/
theorem record_query_results_contract (st : SerpRecorder) (results : List SerpItem)
    (query : String) (stF : SerpRecorder) (recs : List SourceRecord) (n : Nat)
    (h : record_query_results st results query = (stF, recs, n)) :
    n = recs.length ∧
    recs.map SourceRecord.rankInQuery = List.range' 1 recs.length ∧
    (∀ rec ∈ recs, rec.claim = "SERP:" ++ query ∧ rec.sourceKind = "SERP" ∧
      rec.query = query) ∧
    (∀ rec ∈ recs, rec.url ∈ stF.seenUrls) ∧
    stF.totalRecorded = st.totalRecorded + n ∧
    ∃ newAggs,
      stF.aggResults = st.aggResults ++ newAggs ∧
      newAggs.map (fun a => (a.url, a.snippet, a.provider))
        = recs.map (fun rec => (rec.url, rec.snippet, rec.provider)) ∧
      ∀ a ∈ newAggs, ∃ item ∈ results, a = normalizeItem item := by
  obtain ⟨h1, h2, h3, h4, h5, h6, h7, h8, h9, newAggs, ha1, ha2, ha3⟩ :=
    rqrGo_char query results st 0 0 stF recs n h
  refine ⟨by omega, by simpa using h2, h3, ?_, by omega, newAggs, ha1, ha2, ha3⟩
  intro rec hrec
  rw [h7]
  exact List.mem_append_left _ (List.mem_reverse.mpr (List.mem_map_of_mem _ hrec))

/-- Witness for C3: the spec's end-to-end scenario (K = 2, cap = 10, one query
`"A"` offering `[u1, u2, u1, u3]`) evaluated concretely. -/
theorem record_query_results_contract_witness :
    2 = ([⟨"SERP:A", "u1", "Su1", "brave", "SERP", "A", 1⟩,
          ⟨"SERP:A", "u2", "Su2", "brave", "SERP", "A", 2⟩] : List SourceRecord).length ∧
    ([⟨"SERP:A", "u1", "Su1", "brave", "SERP", "A", 1⟩,
      ⟨"SERP:A", "u2", "Su2", "brave", "SERP", "A", 2⟩] : List SourceRecord).map
        SourceRecord.rankInQuery
      = List.range' 1 ([⟨"SERP:A", "u1", "Su1", "brave", "SERP", "A", 1⟩,
          ⟨"SERP:A", "u2", "Su2", "brave", "SERP", "A", 2⟩] : List SourceRecord).length ∧
    (∀ rec ∈ ([⟨"SERP:A", "u1", "Su1", "brave", "SERP", "A", 1⟩,
          ⟨"SERP:A", "u2", "Su2", "brave", "SERP", "A", 2⟩] : List SourceRecord),
      rec.claim = "SERP:" ++ "A" ∧ rec.sourceKind = "SERP" ∧ rec.query = "A") ∧
    (∀ rec ∈ ([⟨"SERP:A", "u1", "Su1", "brave", "SERP", "A", 1⟩,
          ⟨"SERP:A", "u2", "Su2", "brave", "SERP", "A", 2⟩] : List SourceRecord),
      rec.url ∈ (⟨2, some 10, ["u2", "u1"], 2,
        [⟨"Tu1", "u1", "Su1", "brave"⟩, ⟨"Tu2", "u2", "Su2", "brave"⟩]⟩ : SerpRecorder).seenUrls) ∧
    (⟨2, some 10, ["u2", "u1"], 2,
        [⟨"Tu1", "u1", "Su1", "brave"⟩, ⟨"Tu2", "u2", "Su2", "brave"⟩]⟩ : SerpRecorder).totalRecorded
      = (mkSerpRecorder 2 (some 10)).totalRecorded + 2 ∧
    ∃ newAggs,
      (⟨2, some 10, ["u2", "u1"], 2,
        [⟨"Tu1", "u1", "Su1", "brave"⟩, ⟨"Tu2", "u2", "Su2", "brave"⟩]⟩ : SerpRecorder).aggResults
        = (mkSerpRecorder 2 (some 10)).aggResults ++ newAggs ∧
      newAggs.map (fun a => (a.url, a.snippet, a.provider))
        = ([⟨"SERP:A", "u1", "Su1", "brave", "SERP", "A", 1⟩,
            ⟨"SERP:A", "u2", "Su2", "brave", "SERP", "A", 2⟩] : List SourceRecord).map
            (fun rec => (rec.url, rec.snippet, rec.provider)) ∧
      ∀ a ∈ newAggs, ∃ item ∈ ([⟨some "u1", some "Tu1", some "Su1", some "brave"⟩,
          ⟨some "u2", some "Tu2", some "Su2", some "brave"⟩,
          ⟨some "u1", some "Tu1", some "Su1", some "brave"⟩,
          ⟨some "u3", some "Tu3", some "Su3", some "brave"⟩] : List SerpItem),
        a = normalizeItem item :=
  record_query_results_contract (mkSerpRecorder 2 (some 10))
    [⟨some "u1", some "Tu1", some "Su1", some "brave"⟩,
     ⟨some "u2", some "Tu2", some "Su2", some "brave"⟩,
     ⟨some "u1", some "Tu1", some "Su1", some "brave"⟩,
     ⟨some "u3", some "Tu3", some "Su3", some "brave"⟩] "A"
    ⟨2, some 10, ["u2", "u1"], 2,
      [⟨"Tu1", "u1", "Su1", "brave"⟩, ⟨"Tu2", "u2", "Su2", "brave"⟩]⟩
    [⟨"SERP:A", "u1", "Su1", "brave", "SERP", "A", 1⟩,
     ⟨"SERP:A", "u2", "Su2", "brave", "SERP", "A", 2⟩] 2 (by decide)

/-- C7: the cumulative total of accepted items never exceeds the configured
run cap, no single call accepts more than `top_k_per_query` items, and in the
concrete scenario (run cap 3, K = 3, two queries of three unique URLs each)
exactly 3 items are accepted in total, the second query stopping at 0. -/
theorem serp_caps_respected :
    (∀ (K cap : Nat) (calls : List (List SerpItem × String)),
      (runCalls (mkSerpRecorder K (some cap)) calls).totalRecorded ≤ cap) ∧
    (∀ (st : SerpRecorder) (results : List SerpItem) (query : String),
      (record_query_results st results query).2.2 ≤ st.topKPerQuery) ∧
    ((record_query_results (mkSerpRecorder 3 (some 3))
        [⟨some "u1", none, none, none⟩, ⟨some "u2", none, none, none⟩,
         ⟨some "u3", none, none, none⟩] "q1").2.2 = 3 ∧
     (record_query_results
        (record_query_results (mkSerpRecorder 3 (some 3))
          [⟨some "u1", none, none, none⟩, ⟨some "u2", none, none, none⟩,
           ⟨some "u3", none, none, none⟩] "q1").1
        [⟨some "u4", none, none, none⟩, ⟨some "u5", none, none, none⟩,
         ⟨some "u6", none, none, none⟩] "q2").2.2 = 0 ∧
     (record_query_results
        (record_query_results (mkSerpRecorder 3 (some 3))
          [⟨some "u1", none, none, none⟩, ⟨some "u2", none, none, none⟩,
           ⟨some "u3", none, none, none⟩] "q1").1
        [⟨some "u4", none, none, none⟩, ⟨some "u5", none, none, none⟩,
         ⟨some "u6", none, none, none⟩] "q2").1.totalRecorded = 3) := by
  refine ⟨?_, ?_, by decide, by decide, by decide⟩
  · intro K cap calls
    exact runCalls_cap_le calls (mkSerpRecorder K (some cap)) cap rfl (Nat.zero_le cap)
  · intro st results query
    have := rqrGo_taken_le query results st 0 0
    simpa [record_query_results] using this

/-- C8: across any sequence of calls on one recorder, `all_results` never
contains two items with the same URL, and each call only appends (normalized
copies of its accepted items) at the tail — so the aggregate lists items in
first-accepted order and is the running union across queries, not a per-call
result. -/
theorem serp_dedup_order_preserved :
    (∀ (K : Nat) (rc : Option Nat) (calls : List (List SerpItem × String)),
      ((all_results (runCalls (mkSerpRecorder K rc) calls)).map AggItem.url).Nodup) ∧
    (∀ (st : SerpRecorder) (results : List SerpItem) (query : String),
      ∃ newAggs,
        all_results (record_query_results st results query).1
          = all_results st ++ newAggs ∧
        ∀ a ∈ newAggs, ∃ item ∈ results, a = normalizeItem item) := by
  constructor
  · intro K rc calls
    have h := runCalls_aggInv calls (mkSerpRecorder K rc) (by constructor <;> simp [mkSerpRecorder])
    exact h.1
  · intro st results query
    obtain ⟨_, _, _, _, _, _, _, _, _, newAggs, ha1, _, ha3⟩ :=
      rqrGo_char query results st 0 0 _ _ _ rfl
    exact ⟨newAggs, ha1, ha3⟩

/-! ### The provenance recorder -/

/-- C9: `record_source` never raises: a corrupt (or unreadable) existing log
is treated as empty and the new record is still persisted (the resulting log
holds exactly the new record); a parsed log becomes the prior records followed
by the new one; an absent log behaves like the corrupt case. -/
theorem record_source_best_effort :
    ∀ (ts claim url snippet : String) (l : List SourceItem),
      record_source .corrupt ts claim url snippet = [⟨ts, claim, url, snippet⟩] ∧
      record_source .absent ts claim url snippet = [⟨ts, claim, url, snippet⟩] ∧
      record_source (.parsed l) ts claim url snippet = l ++ [⟨ts, claim, url, snippet⟩] := by
  intro ts claim url snippet l
  exact ⟨rfl, rfl, rfl⟩

/-! ### The fetch client -/

theorem fetchLoop_step_ok (net : Nat → NetResult) (jitter : Nat → ℚ) (key : String)
    (a r : Nat) (d : ℚ) (dd : FetchData) (h : attemptOnce (net a) = .ok dd) :
    fetchLoop net jitter key a (r + 1) d = ⟨.ok dd, 1, [], [(key, dd)]⟩ := by
  rw [fetchLoop, h]

theorem fetchLoop_step_err_last (net : Nat → NetResult) (jitter : Nat → ℚ) (key : String)
    (a : Nat) (d : ℚ) (e : AttemptError) (h : attemptOnce (net a) = .error e) :
    fetchLoop net jitter key a 1 d = ⟨.err (.attemptFailed e), 1, [], []⟩ := by
  rw [fetchLoop, h]

theorem fetchLoop_step_err (net : Nat → NetResult) (jitter : Nat → ℚ) (key : String)
    (a r : Nat) (d : ℚ) (e : AttemptError) (h : attemptOnce (net a) = .error e) :
    fetchLoop net jitter key a (r + 2) d =
      ⟨(fetchLoop net jitter key (a + 1) (r + 1) (2 * d)).result,
       (fetchLoop net jitter key (a + 1) (r + 1) (2 * d)).netCalls + 1,
       (d + jitter a) :: (fetchLoop net jitter key (a + 1) (r + 1) (2 * d)).sleeps,
       (fetchLoop net jitter key (a + 1) (r + 1) (2 * d)).writes⟩ := by
  rw [fetchLoop, h]

/-- If every attempt raises, the retry loop performs exactly `remaining`
attempts, sleeps `delay * 2 ^ i + jitter` between consecutive attempts with
the delay doubling, writes nothing, and re-raises the last attempt's error. -/
theorem fetchLoop_allFail (net : Nat → NetResult) (jitter : Nat → ℚ) (key : String)
    (e : Nat → AttemptError) (he : ∀ i, attemptOnce (net i) = .error (e i)) :
    ∀ (r a : Nat) (d : ℚ), 1 ≤ r →
      fetchLoop net jitter key a r d =
        ⟨.err (.attemptFailed (e (a + r - 1))), r,
         (List.range' a (r - 1)).map (fun k => d * 2 ^ (k - a) + jitter k), []⟩ := by
  intro r
  induction r with
  | zero => intro a d h; omega
  | succ rr ihr =>
    intro a d _
    cases rr with
    | zero =>
      rw [fetchLoop_step_err_last net jitter key a d (e a) (he a)]
      simp
    | succ rr' =>
      have hrec := ihr (a + 1) (2 * d) (by omega)
      rw [fetchLoop_step_err net jitter key a rr' d (e a) (he a), hrec]
      dsimp only
      simp only [FetchOut.mk.injEq]
      refine ⟨?_, trivial, ?_, trivial⟩
      · have harg : a + 1 + (rr' + 1) - 1 = a + (rr' + 1 + 1) - 1 := by omega
        rw [harg]
      · have hn : rr' + 1 + 1 - 1 = rr' + 1 := by omega
        have hn' : rr' + 1 - 1 = rr' := by omega
        rw [hn, hn', List.range'_succ]
        simp only [List.map_cons]
        congr 1
        · simp
        · refine List.map_congr_left ?_
          intro k hk
          rw [List.mem_range'_1] at hk
          have hka : k - a = k - (a + 1) + 1 := by omega
          rw [hka, pow_succ]
          ring

/-- The retry loop writes to the cache exactly on success: either no write
happened (and the loop did not succeed), or the loop succeeded after at least
one network call and wrote exactly the returned data under its key. -/
theorem fetchLoop_writes (net : Nat → NetResult) (jitter : Nat → ℚ) (key : String) :
    ∀ (r a : Nat) (d : ℚ),
      ((fetchLoop net jitter key a r d).writes = [] ∧
        ∀ dd, (fetchLoop net jitter key a r d).result ≠ .ok dd) ∨
      ∃ dd, (fetchLoop net jitter key a r d).result = .ok dd ∧
        (fetchLoop net jitter key a r d).writes = [(key, dd)] ∧
        1 ≤ (fetchLoop net jitter key a r d).netCalls := by
  intro r
  induction r with
  | zero =>
    intro a d
    left
    exact ⟨rfl, fun dd h => FetchResult.noConfusion h⟩
  | succ rr ihr =>
    intro a d
    cases hA : attemptOnce (net a) with
    | ok dd =>
      rw [fetchLoop_step_ok net jitter key a rr d dd hA]
      right
      exact ⟨dd, rfl, rfl, Nat.le_refl 1⟩
    | error err =>
      cases rr with
      | zero =>
        rw [fetchLoop_step_err_last net jitter key a d err hA]
        left
        exact ⟨rfl, fun dd h => FetchResult.noConfusion h⟩
      | succ rr' =>
        rw [fetchLoop_step_err net jitter key a rr' d err hA]
        rcases ihr (a + 1) (2 * d) with ⟨hw, hr⟩ | ⟨dd, hres, hw, hn⟩
        · left
          exact ⟨hw, hr⟩
        · right
          exact ⟨dd, hres, hw, Nat.succ_le_succ (Nat.zero_le _)⟩

/-- On an empty cache in the live (non-cache-only) path, `fetch` is exactly
the retry loop started at attempt 1 with delay 1.0; if every attempt raises,
the last error propagates after exactly `maxRetries` attempts with the
doubling back-off sleeps. -/
theorem fetch_live_allFail (provider url method : String)
    (params jsonBody : Option (List (String × String))) (N : Nat)
    (net : Nat → NetResult) (jitter : Nat → ℚ) (e : Nat → AttemptError)
    (hN : 1 ≤ N) (hA : ∀ i, attemptOnce (net i) = .error (e i)) :
    fetch (fun _ => none) provider url method params jsonBody true false N net jitter =
      ⟨.err (.attemptFailed (e N)), N,
       (List.range' 1 (N - 1)).map (fun k => 2 ^ (k - 1) + jitter k), []⟩ := by
  have h := fetchLoop_allFail net jitter
    (cacheKeyName provider (mkPayload url method params jsonBody)) e hA N 1 1 hN
  have h1N : 1 + N - 1 = N := by omega
  rw [h1N] at h
  have hmap : ((List.range' 1 (N - 1)).map fun k => (1 : ℚ) * 2 ^ (k - 1) + jitter k)
      = (List.range' 1 (N - 1)).map fun k => (2 : ℚ) ^ (k - 1) + jitter k :=
    List.map_congr_left (fun k _ => by ring)
  rw [hmap] at h
  simpa [fetch] using h

/-- C4: with `cache_only=true`, `fetch` returns the cached entry when one
exists, fails with the cache-miss error when none exists, and performs zero
network calls no matter what the cache holds. -/
theorem fetch_cache_only_contract (store : CacheStore) (provider url method : String)
    (params jsonBody : Option (List (String × String))) (useCache : Bool)
    (maxRetries : Nat) (net : Nat → NetResult) (jitter : Nat → ℚ) :
    (∀ d : FetchData,
      store (cacheKeyName provider (mkPayload url method params jsonBody))
          = some (.parsable d) →
      fetch store provider url method params jsonBody useCache true maxRetries net jitter
        = ⟨.ok d, 0, [], []⟩) ∧
    (store (cacheKeyName provider (mkPayload url method params jsonBody)) = none →
      fetch store provider url method params jsonBody useCache true maxRetries net jitter
        = ⟨.err .cacheMiss, 0, [], []⟩) ∧
    (fetch store provider url method params jsonBody useCache true maxRetries net
        jitter).netCalls = 0 := by
  refine ⟨?_, ?_, ?_⟩
  · intro d hd
    simp [fetch, hd]
  · intro h0
    simp [fetch, h0]
  · cases hs : store (cacheKeyName provider (mkPayload url method params jsonBody)) with
    | none => simp [fetch, hs]
    | some fc => cases fc <;> simp [fetch, hs]

/-- Witness for C4: a one-entry cache returns its entry; the empty cache gives
the cache-miss failure; both with zero network calls. -/
theorem fetch_cache_only_contract_witness :
    (fetch (fun _ => some (.parsable ⟨⟨200, 5⟩, .text "ok"⟩)) "brave" "https://u" "GET"
        none none true true 4 (fun _ => .exn) (fun _ => 0)
      = ⟨.ok ⟨⟨200, 5⟩, .text "ok"⟩, 0, [], []⟩) ∧
    (fetch (fun _ => none) "brave" "https://u" "GET" none none true true 4
        (fun _ => .exn) (fun _ => 0) = ⟨.err .cacheMiss, 0, [], []⟩) ∧
    (fetch (fun _ => none) "brave" "https://u" "GET" none none true true 4
        (fun _ => .exn) (fun _ => 0)).netCalls = 0 :=
  ⟨(fetch_cache_only_contract (fun _ => some (.parsable ⟨⟨200, 5⟩, .text "ok"⟩))
      "brave" "https://u" "GET" none none true 4 (fun _ => .exn) (fun _ => 0)).1 _ rfl,
   (fetch_cache_only_contract (fun _ => none) "brave" "https://u" "GET" none none true 4
      (fun _ => .exn) (fun _ => 0)).2.1 rfl,
   (fetch_cache_only_contract (fun _ => none) "brave" "https://u" "GET" none none true 4
      (fun _ => .exn) (fun _ => 0)).2.2⟩

/-- C10: a `cache_only` fetch never writes a cache entry (hit or miss), and
any fetch that does write is a non-cache-only call whose retry loop succeeded:
it wrote exactly the returned data under the request's cache key after at
least one network call. -/
theorem fetch_cache_write_frame :
    (∀ (store : CacheStore) (provider url method : String)
        (params jsonBody : Option (List (String × String))) (useCache : Bool)
        (maxRetries : Nat) (net : Nat → NetResult) (jitter : Nat → ℚ),
      (fetch store provider url method params jsonBody useCache true maxRetries net
          jitter).writes = []) ∧
    (∀ (store : CacheStore) (provider url method : String)
        (params jsonBody : Option (List (String × String))) (useCache cacheOnly : Bool)
        (maxRetries : Nat) (net : Nat → NetResult) (jitter : Nat → ℚ),
      (fetch store provider url method params jsonBody useCache cacheOnly maxRetries net
          jitter).writes ≠ [] →
      cacheOnly = false ∧
      ∃ d, (fetch store provider url method params jsonBody useCache cacheOnly maxRetries
              net jitter).result = .ok d ∧
        (fetch store provider url method params jsonBody useCache cacheOnly maxRetries net
            jitter).writes
          = [(cacheKeyName provider (mkPayload url method params jsonBody), d)] ∧
        1 ≤ (fetch store provider url method params jsonBody useCache cacheOnly maxRetries
              net jitter).netCalls) := by
  have part1 : ∀ (store : CacheStore) (provider url method : String)
      (params jsonBody : Option (List (String × String))) (useCache : Bool)
      (maxRetries : Nat) (net : Nat → NetResult) (jitter : Nat → ℚ),
      (fetch store provider url method params jsonBody useCache true maxRetries net
          jitter).writes = [] := by
    intro store provider url method params jsonBody useCache maxRetries net jitter
    cases hs : store (cacheKeyName provider (mkPayload url method params jsonBody)) with
    | none => simp [fetch, hs]
    | some fc => cases fc <;> simp [fetch, hs]
  refine ⟨part1, ?_⟩
  intro store provider url method params jsonBody useCache cacheOnly maxRetries net jitter hw
  cases cacheOnly with
  | true =>
    exact absurd (part1 store provider url method params jsonBody useCache maxRetries net
      jitter) hw
  | false =>
    refine ⟨rfl, ?_⟩
    have hloop : ∀ hunf : fetch store provider url method params jsonBody useCache false
          maxRetries net jitter
        = fetchLoop net jitter (cacheKeyName provider (mkPayload url method params jsonBody))
            1 maxRetries 1,
        ∃ d, (fetch store provider url method params jsonBody useCache false maxRetries
                net jitter).result = .ok d ∧
          (fetch store provider url method params jsonBody useCache false maxRetries net
              jitter).writes
            = [(cacheKeyName provider (mkPayload url method params jsonBody), d)] ∧
          1 ≤ (fetch store provider url method params jsonBody useCache false maxRetries
                net jitter).netCalls := by
      intro hunf
      rw [hunf] at hw ⊢
      rcases fetchLoop_writes net jitter
          (cacheKeyName provider (mkPayload url method params jsonBody)) maxRetries 1 1 with
        ⟨hw', _⟩ | ⟨dd, hres, hw', hn⟩
      · exact absurd hw' hw
      · exact ⟨dd, hres, hw', hn⟩
    cases hs : store (cacheKeyName provider (mkPayload url method params jsonBody)) with
    | none => exact hloop (by simp [fetch, hs])
    | some fc =>
      cases fc with
      | parsable d0 =>
        cases useCache with
        | true => exact absurd (by simp [fetch, hs]) hw
        | false => exact hloop (by simp [fetch, hs])
      | corrupt =>
        cases useCache with
        | true => exact absurd (by simp [fetch, hs]) hw
        | false => exact hloop (by simp [fetch, hs])

/-- Witness for C10: a cache-only call on a populated cache writes nothing,
and a live fetch that succeeds on its first attempt triggers the write-only-
on-success description. -/
theorem fetch_cache_write_frame_witness :
    (fetch (fun _ => some (.parsable ⟨⟨200, 5⟩, .text "ok"⟩)) "brave" "https://u" "GET"
        none none true true 4 (fun _ => .exn) (fun _ => 0)).writes = [] ∧
    ((false : Bool) = false ∧
      ∃ d, (fetch (fun _ => none) "brave" "https://u" "GET" none none true false 1
              (fun _ => .resp 200 5 (.text "ok")) (fun _ => 0)).result = .ok d ∧
        (fetch (fun _ => none) "brave" "https://u" "GET" none none true false 1
            (fun _ => .resp 200 5 (.text "ok")) (fun _ => 0)).writes
          = [(cacheKeyName "brave" (mkPayload "https://u" "GET" none none), d)] ∧
        1 ≤ (fetch (fun _ => none) "brave" "https://u" "GET" none none true false 1
              (fun _ => .resp 200 5 (.text "ok")) (fun _ => 0)).netCalls) :=
  ⟨fetch_cache_write_frame.1 (fun _ => some (.parsable ⟨⟨200, 5⟩, .text "ok"⟩))
      "brave" "https://u" "GET" none none true 4 (fun _ => .exn) (fun _ => 0),
   fetch_cache_write_frame.2 (fun _ => none) "brave" "https://u" "GET" none none true false
      1 (fun _ => .resp 200 5 (.text "ok")) (fun _ => 0) (by decide)⟩

/-- C5: on an empty cache, (1) a target answering a retryable status on every
attempt makes `fetch` with `max_retries = N` perform exactly `N` attempts and
then re-raise the last underlying error (the retryable-status error of the
last attempt), sleeping `2^(k-1) + jitter k` seconds between attempts — delay
1.0 doubling each retry; (2) a target failing twice then answering 200 makes
`fetch` succeed on the 3rd attempt and persist the result to the cache; (3)
with each jitter sample in `[0, 0.5)` (as drawn by `random.uniform(0, 0.5)`),
each wait lies in `[delay, delay + 0.5)` for its doubling delay. -/
theorem fetch_retry_bound_and_backoff :
    (∀ (provider url method : String) (params jsonBody : Option (List (String × String)))
        (N : Nat) (net : Nat → NetResult) (jitter : Nat → ℚ)
        (sc sm : Nat → Nat) (sb : Nat → Body),
      1 ≤ N →
      (∀ i, net i = .resp (sc i) (sm i) (sb i)) →
      (∀ i, sc i ∈ retryableStatuses) →
      fetch (fun _ => none) provider url method params jsonBody true false N net jitter =
        ⟨.err (.attemptFailed (.retryableStatus (sc N))), N,
         (List.range' 1 (N - 1)).map (fun k => 2 ^ (k - 1) + jitter k), []⟩) ∧
    (∀ (provider url method : String) (params jsonBody : Option (List (String × String)))
        (N : Nat) (net : Nat → NetResult) (jitter : Nat → ℚ)
        (e1 e2 : AttemptError) (ms : Nat) (body : Body),
      3 ≤ N →
      attemptOnce (net 1) = .error e1 →
      attemptOnce (net 2) = .error e2 →
      net 3 = .resp 200 ms body →
      fetch (fun _ => none) provider url method params jsonBody true false N net jitter =
        ⟨.ok ⟨⟨200, ms⟩, body⟩, 3, [1 + jitter 1, 2 + jitter 2],
         [(cacheKeyName provider (mkPayload url method params jsonBody),
           ⟨⟨200, ms⟩, body⟩)]⟩) ∧
    (∀ (jitter : Nat → ℚ) (N : Nat),
      (∀ k, 0 ≤ jitter k ∧ jitter k < 1 / 2) →
      ∀ w ∈ (List.range' 1 (N - 1)).map (fun k => (2 : ℚ) ^ (k - 1) + jitter k),
        ∃ k, 1 ≤ k ∧ w = 2 ^ (k - 1) + jitter k ∧
          2 ^ (k - 1) ≤ w ∧ w < 2 ^ (k - 1) + 1 / 2) := by
  refine ⟨?_, ?_, ?_⟩
  · intro provider url method params jsonBody N net jitter sc sm sb hN hnet hretry
    refine fetch_live_allFail provider url method params jsonBody N net jitter
      (fun i => .retryableStatus (sc i)) hN ?_
    intro i
    rw [hnet i]
    simp [attemptOnce, hretry i]
  · intro provider url method params jsonBody N net jitter e1 e2 ms body hN h1 h2 h3
    have hA3 : attemptOnce (net 3) = .ok ⟨⟨200, ms⟩, body⟩ := by
      rw [h3]
      norm_num [attemptOnce, retryableStatuses]
    obtain ⟨m, rfl⟩ : ∃ m, N = m + 3 := ⟨N - 3, by omega⟩
    have hunf : fetch (fun _ => none) provider url method params jsonBody true false
          (m + 3) net jitter
        = fetchLoop net jitter
            (cacheKeyName provider (mkPayload url method params jsonBody)) 1 (m + 3) 1 := by
      simp [fetch]
    rw [hunf]
    have hm3 : m + 3 = (m + 1) + 2 := by omega
    rw [hm3, fetchLoop_step_err net jitter _ 1 (m + 1) 1 e1 h1]
    have hm2 : m + 1 + 1 = m + 2 := by omega
    rw [hm2, fetchLoop_step_err net jitter _ 2 m (2 * 1) e2 h2]
    rw [fetchLoop_step_ok net jitter _ 3 m (2 * (2 * 1)) ⟨⟨200, ms⟩, body⟩ hA3]
    dsimp only
    norm_num
  · intro jitter N hj w hw
    rw [List.mem_map] at hw
    obtain ⟨k, hk, rfl⟩ := hw
    rw [List.mem_range'_1] at hk
    exact ⟨k, hk.1, rfl, by linarith [(hj k).1], by linarith [(hj k).2]⟩

/-- Witness for C5: a target always answering 503 with `max_retries = 4`
(4 attempts, sleeps 1, 2, 4 with zero jitter); a target failing twice (a
transport error) then answering 200 with `max_retries = 4`; the jitter-range
statement at `N = 4` with zero jitter. -/
theorem fetch_retry_bound_and_backoff_witness :
    fetch (fun _ => none) "p" "https://u" "GET" none none true false 4
        (fun _ => .resp 503 5 (.text "boom")) (fun _ => 0) =
      ⟨.err (.attemptFailed (.retryableStatus 503)), 4,
       (List.range' 1 (4 - 1)).map (fun k => 2 ^ (k - 1) + (fun _ => (0 : ℚ)) k), []⟩ ∧
    fetch (fun _ => none) "p" "https://u" "GET" none none true false 4
        (fun i => if i < 3 then .exn else .resp 200 7 (.text "ok")) (fun _ => 0) =
      ⟨.ok ⟨⟨200, 7⟩, .text "ok"⟩, 3, [1 + (fun _ => (0 : ℚ)) 1, 2 + (fun _ => (0 : ℚ)) 2],
       [(cacheKeyName "p" (mkPayload "https://u" "GET" none none),
         ⟨⟨200, 7⟩, .text "ok"⟩)]⟩ ∧
    (∀ w ∈ (List.range' 1 (4 - 1)).map (fun k => (2 : ℚ) ^ (k - 1) + (fun _ => (0 : ℚ)) k),
      ∃ k, 1 ≤ k ∧ w = 2 ^ (k - 1) + (fun _ => (0 : ℚ)) k ∧
        2 ^ (k - 1) ≤ w ∧ w < 2 ^ (k - 1) + 1 / 2) :=
  ⟨fetch_retry_bound_and_backoff.1 "p" "https://u" "GET" none none 4
      (fun _ => .resp 503 5 (.text "boom")) (fun _ => 0)
      (fun _ => 503) (fun _ => 5) (fun _ => .text "boom")
      (by norm_num) (fun _ => rfl) (fun _ => (by decide : (503 : Nat) ∈ retryableStatuses)),
   fetch_retry_bound_and_backoff.2.1 "p" "https://u" "GET" none none 4
      (fun i => if i < 3 then .exn else .resp 200 7 (.text "ok")) (fun _ => 0)
      .transport .transport 7 (.text "ok") (by norm_num) rfl rfl rfl,
   fetch_retry_bound_and_backoff.2.2 (fun _ => 0) 4
      (fun _ => ⟨le_refl 0, by norm_num⟩)⟩

/-- Counterexample to C2 as stated: a target always answering 404 (non-2xx,
not in the retryable set) with the default `max_retries = 4` is retried —
`fetch` performs 4 network calls (not 1) with 3 back-off sleeps (not 0) before
the `HTTPStatusError` propagates: the catch-all `except Exception` around
`r.raise_for_status()` retries terminal statuses too. -/
theorem fetch_terminal_status_counterexample :
    (fetch (fun _ => none) "p" "https://u" "GET" none none true false 4
        (fun _ => .resp 404 7 (.text "nf")) (fun _ => 0)).netCalls = 4 ∧
    (fetch (fun _ => none) "p" "https://u" "GET" none none true false 4
        (fun _ => .resp 404 7 (.text "nf")) (fun _ => 0)).sleeps.length = 3 ∧
    (fetch (fun _ => none) "p" "https://u" "GET" none none true false 4
        (fun _ => .resp 404 7 (.text "nf")) (fun _ => 0)).result
      = .err (.attemptFailed (.httpStatusError 404)) := by
  refine ⟨by decide, by decide, by decide⟩

/-- C2 amended: a non-2xx status outside the retryable set raises
`HTTPStatusError` inside the `try`, which the catch-all handler retries like
any other failure: with `max_retries = N` the fetch performs exactly `N`
attempts with the standard doubling back-off and then the last
`HTTPStatusError` propagates. -/
theorem fetch_terminal_status_retried (provider url method : String)
    (params jsonBody : Option (List (String × String))) (N : Nat)
    (net : Nat → NetResult) (jitter : Nat → ℚ) (sc sm : Nat → Nat) (sb : Nat → Body)
    (hN : 1 ≤ N)
    (hnet : ∀ i, net i = .resp (sc i) (sm i) (sb i))
    (hterm : ∀ i, sc i ∉ retryableStatuses)
    (h2xx : ∀ i, ¬(200 ≤ sc i ∧ sc i ≤ 299)) :
    fetch (fun _ => none) provider url method params jsonBody true false N net jitter =
      ⟨.err (.attemptFailed (.httpStatusError (sc N))), N,
       (List.range' 1 (N - 1)).map (fun k => 2 ^ (k - 1) + jitter k), []⟩ := by
  refine fetch_live_allFail provider url method params jsonBody N net jitter
    (fun i => .httpStatusError (sc i)) hN ?_
  intro i
  rw [hnet i]
  simp [attemptOnce, hterm i, h2xx i]

/-- Witness for the amended C2: the always-404 target with `max_retries = 4`. -/
theorem fetch_terminal_status_retried_witness :
    fetch (fun _ => none) "p" "https://u" "GET" none none true false 4
        (fun _ => .resp 404 7 (.text "nf")) (fun _ => 0) =
      ⟨.err (.attemptFailed (.httpStatusError 404)), 4,
       (List.range' 1 (4 - 1)).map (fun k => 2 ^ (k - 1) + (fun _ => (0 : ℚ)) k), []⟩ :=
  fetch_terminal_status_retried "p" "https://u" "GET" none none 4
    (fun _ => .resp 404 7 (.text "nf")) (fun _ => 0)
    (fun _ => 404) (fun _ => 7) (fun _ => .text "nf")
    (by norm_num) (fun _ => rfl)
    (fun _ => (by decide : (404 : Nat) ∉ retryableStatuses))
    (fun _ => (by decide : ¬(200 ≤ (404 : Nat) ∧ (404 : Nat) ≤ 299)))

/-- Counterexample to C1 as stated: a corrupt cache file under the request's
key makes `fetch` (with the default `use_cache=true`, `cache_only=false`)
raise the JSON parse error with zero network calls — it neither treats the
corruption as a miss nor proceeds to the live fetch (which here would have
answered 200). -/
theorem fetch_corrupt_cache_counterexample :
    fetch (fun _ => some .corrupt) "p" "https://u" "GET" none none true false 4
        (fun _ => .resp 200 5 (.text "ok")) (fun _ => 0)
      = ⟨.err .jsonDecodeError, 0, [], []⟩ := by
  simp [fetch]

/-- C1 amended: a corrupt cache entry is not tolerated by `fetch`: whenever
the cache file for the request is read — in `cache_only` mode or in the
`use_cache` path — the `json.loads` failure propagates to the caller and no
live fetch happens.  (Only the provenance recorder treats corrupt persisted
data as absence; see `record_source_best_effort`.) -/
theorem fetch_corrupt_cache_raises (store : CacheStore) (provider url method : String)
    (params jsonBody : Option (List (String × String))) (useCache cacheOnly : Bool)
    (maxRetries : Nat) (net : Nat → NetResult) (jitter : Nat → ℚ)
    (hc : store (cacheKeyName provider (mkPayload url method params jsonBody))
      = some .corrupt)
    (hmode : cacheOnly = true ∨ useCache = true) :
    fetch store provider url method params jsonBody useCache cacheOnly maxRetries net jitter
      = ⟨.err .jsonDecodeError, 0, [], []⟩ := by
  rcases hmode with rfl | rfl
  · simp [fetch, hc]
  · cases cacheOnly with
    | true => simp [fetch, hc]
    | false => simp [fetch, hc]

/-- Witness for the amended C1: an all-corrupt cache in cache-only mode. -/
theorem fetch_corrupt_cache_raises_witness :
    fetch (fun _ => some .corrupt) "p" "https://u" "GET" none none true true 4
        (fun _ => .exn) (fun _ => 0) = ⟨.err .jsonDecodeError, 0, [], []⟩ :=
  fetch_corrupt_cache_raises (fun _ => some .corrupt) "p" "https://u" "GET" none none
    true true 4 (fun _ => .exn) (fun _ => 0) rfl (Or.inl rfl)

/-! ### The cache key -/

/-- Serializing a dict sorts its entries by key, so two enumerations of the
same dict (permutations with no duplicate keys) serialize identically. -/
theorem sortByKey_eq_of_perm (l₁ l₂ : List (String × String)) (hp : l₁.Perm l₂)
    (hnd : (l₁.map Prod.fst).Nodup) : sortByKey l₁ = sortByKey l₂ := by
  have hps : (sortByKey l₁).Perm (sortByKey l₂) :=
    (List.perm_insertionSort keyLE l₁).trans
      (hp.trans (List.perm_insertionSort keyLE l₂).symm)
  have hs₁ : List.Sorted keyLE (sortByKey l₁) := List.sorted_insertionSort keyLE l₁
  have hs₂ : List.Sorted keyLE (sortByKey l₂) := List.sorted_insertionSort keyLE l₂
  have hnd₁ : ((sortByKey l₁).map Prod.fst).Nodup :=
    ((List.perm_insertionSort keyLE l₁).map Prod.fst).nodup_iff.mpr hnd
  have hnd₂ : ((sortByKey l₂).map Prod.fst).Nodup :=
    ((List.perm_insertionSort keyLE l₂).map Prod.fst).nodup_iff.mpr
      ((hp.map Prod.fst).nodup_iff.mp hnd)
  have hlt : ∀ (l : List (String × String)), List.Sorted keyLE l →
      (l.map Prod.fst).Nodup → l.Pairwise (fun a b => a.1 < b.1) := by
    intro l hs hn
    have hne : l.Pairwise (fun a b => a.1 ≠ b.1) := List.pairwise_map.mp hn
    exact (hs.and hne).imp fun h => lt_of_le_of_ne h.1 h.2
  haveI : IsAntisymm (String × String) (fun a b => a.1 < b.1) :=
    ⟨fun a b h1 h2 => absurd (lt_trans h1 h2) (lt_irrefl _)⟩
  exact List.eq_of_perm_of_sorted hps (hlt _ hs₁ hnd₁) (hlt _ hs₂ hnd₂)

theorem jsonObj_eq_of_perm (l₁ l₂ : List (String × String)) (hp : l₁.Perm l₂)
    (hnd : (l₁.map Prod.fst).Nodup) : jsonObj l₁ = jsonObj l₂ := by
  unfold jsonObj
  rw [sortByKey_eq_of_perm l₁ l₂ hp hnd]

theorem wordHex_length (w : Nat) : (wordHex w).length = 8 := by
  simp [wordHex]

theorem digestChars_length (s : Hash8) : (digestChars s).length = 64 := by
  simp [digestChars, wordHex_length]

/-- C6: the cache key is a pure function of the request payload alone — the
same fixed-length 16-character digest serves every provider, the provider
being only the file-name prefix — and it is canonical: two enumerations of
the same `params`/`json` dicts (permutations, no duplicate keys) yield the
same key, so identical request descriptors always map to the same key across
calls and process restarts. -/
theorem cache_key_deterministic_digest :
    (∀ p : Payload, ∃ d : String, d.length = 16 ∧
      ∀ provider, cacheKeyName provider p = provider ++ "-" ++ d ++ ".json") ∧
    (∀ (provider url method : String) (params₁ params₂ json₁ json₂ : List (String × String)),
      params₁.Perm params₂ → (params₁.map Prod.fst).Nodup →
      json₁.Perm json₂ → (json₁.map Prod.fst).Nodup →
      cacheKeyName provider (mkPayload url method (some params₁) (some json₁))
        = cacheKeyName provider (mkPayload url method (some params₂) (some json₂))) := by
  constructor
  · intro p
    refine ⟨cacheDigest p, ?_, fun provider => rfl⟩
    show (String.mk ((digestChars _).take 16)).length = 16
    simp [String.length, List.length_take, digestChars_length]
  · intro provider url method params₁ params₂ json₁ json₂ hpp hnp hpj hnj
    have hcanon : canonicalPayload (mkPayload url method (some params₁) (some json₁))
        = canonicalPayload (mkPayload url method (some params₂) (some json₂)) := by
      unfold canonicalPayload mkPayload
      dsimp only [Option.getD]
      rw [jsonObj_eq_of_perm json₁ json₂ hpj hnj,
        jsonObj_eq_of_perm params₁ params₂ hpp hnp]
    unfold cacheKeyName cacheDigest
    rw [hcanon]

/-- Witness for C6: a concrete payload's digest, and key equality for the two
enumeration orders of a two-entry `params` dict. -/
theorem cache_key_deterministic_digest_witness :
    (∃ d : String, d.length = 16 ∧
      ∀ provider, cacheKeyName provider (mkPayload "https://u" "GET" none none)
        = provider ++ "-" ++ d ++ ".json") ∧
    cacheKeyName "brave"
        (mkPayload "https://u" "GET" (some [("q", "rates"), ("count", "5")])
          (some [("a", "1"), ("b", "2")]))
      = cacheKeyName "brave"
        (mkPayload "https://u" "GET" (some [("count", "5"), ("q", "rates")])
          (some [("b", "2"), ("a", "1")])) :=
  ⟨cache_key_deterministic_digest.1 (mkPayload "https://u" "GET" none none),
   cache_key_deterministic_digest.2 "brave" "https://u" "GET"
     [("q", "rates"), ("count", "5")] [("count", "5"), ("q", "rates")]
     [("a", "1"), ("b", "2")] [("b", "2"), ("a", "1")]
     (by decide) (by decide) (by decide) (by decide)⟩

end Fedrate
